import Mathlib

/-!
Shallow embedding of the board-simulation engine of CUP-STACK-EX
(src/src/App.tsx together with the type declarations of src/types.ts).

Conventions of the embedding:
* A `Cup` record mirrors the TypeScript `Cup` type; `size` is a `Nat`
  (the source only ever stores small non-negative integers in it).
* A `Lane` is a `List Cup` with index 0 = bottom of the stack, matching the
  array layout of the source (`lane[lane.length-1]` is the top cup).
* JavaScript's `below.size - cup.size === 1` on non-negative integers agrees
  with truncated `Nat` subtraction: both hold exactly when
  `below.size = cup.size + 1`.
* `applyDropToLanes` in the source receives an impure id factory
  `createId : () => string` and calls it at most once on every control path;
  the embedding therefore takes the single potential fresh id as the
  explicit argument `newId`.  Likewise the merge branch of `handleMove`
  calls `nextId()` exactly once, so the embedding takes one `newId` and the
  `accepted` outcome records (field `usedId`) whether that id was consumed,
  mirroring the side effect on the id counter.
* Out-of-range lane indices are accessed with `List.getD _ []`; every
  theorem below restricts attention to indices that exist, exactly the
  situations in which the source code does not fault.
-/

namespace CupStack

structure Cup where
  id : String
  size : Nat
  linked : Bool
deriving Repr, DecidableEq

abbrev Lane := List Cup

def cupDefault : Cup := ⟨"", 0, false⟩

instance : Inhabited Cup := ⟨cupDefault⟩

/-- `LANE_COUNT` constant of App.tsx. -/
def LANE_COUNT : Nat := 4

/-- `MAX_STACK_HEIGHT` constant of App.tsx. -/
def MAX_STACK_HEIGHT : Nat := 6

/-- Result record of the drop resolver, mirroring `DropResult` of App.tsx. -/
structure DropResult where
  lanes : List Lane
  lost : Bool
  message : String
  spawnedId : Option String
  spawnedVisualSize : Option Nat
deriving Repr, DecidableEq

/-- `detectForcedLoss` of App.tsx: a lane that does not exist yields `null`;
a lane at max height, or one whose top cup is a locked size-1 cup, yields a
forced-loss message; anything else yields `null`. -/
def detectForcedLoss (lanes : List Lane) (nextLane : Nat) : Option String :=
  match lanes[nextLane]? with
  | none => none
  | some lane =>
    if MAX_STACK_HEIGHT ≤ lane.length then
      some ("次の落下先レーン" ++ Nat.repr (nextLane + 1) ++
        "は高さ6で受け皿なし。落下前に敗北します。")
    else
      match lane.getLast? with
      | some top =>
        if top.linked && top.size == 1 then
          some ("次の落下先レーン" ++ Nat.repr (nextLane + 1) ++
            "はロックされた1がトップです。1を落とせません。")
        else none
      | none => none

/-- The `while (idx > 0 && stack[idx].linked) idx -= 1` loop of
`getMovingGroupStartIndex`, recursing on the current index. -/
def groupStartAux (stack : List Cup) : Nat → Nat
  | 0 => 0
  | n + 1 => if (stack.getD (n + 1) cupDefault).linked then groupStartAux stack n else n + 1

/-- `getMovingGroupStartIndex` of App.tsx (`-1` on the empty stack, like the
source; otherwise the result of the downward walk from the top index). -/
def getMovingGroupStartIndex (stack : List Cup) : Int :=
  if stack.length = 0 then -1
  else (groupStartAux stack (stack.length - 1) : Int)

/-- `pickNextLane` of App.tsx, with the single `Math.random()` draw made
explicit: `r` stands for `Math.floor(Math.random() * candidates.length)`,
which is always a valid index into `candidates`. -/
def pickNextLane (exclude : Option Nat) (r : Nat) : Nat :=
  let candidates := (List.range LANE_COUNT).filter (fun lane => exclude ≠ some lane)
  candidates.getD (r % candidates.length) 0

/-- One window test of `checkWin`: `slice` is `lane.slice(i, i+5)`, checked
for the size pattern `[5,4,3,2,1]` with the four upper cups linked. -/
def winWindow (slice : List Cup) : Bool :=
  match slice with
  | c0 :: c1 :: c2 :: c3 :: c4 :: _ =>
    c0.size == 5 && c1.size == 4 && c2.size == 3 && c3.size == 2 && c4.size == 1 &&
      (c1.linked && c2.linked && c3.linked && c4.linked)
  | _ => false

/-- The per-lane loop of `checkWin` (`for i in 0 .. lane.length - 5`). -/
def laneWins (lane : Lane) : Bool :=
  if lane.length < 5 then false
  else (List.range (lane.length - 5 + 1)).any fun i => winWindow ((lane.drop i).take 5)

/-- `checkWin` of App.tsx. -/
def checkWin (lanes : List Lane) : Bool :=
  lanes.any laneWins

/-- `applyDropToLanes` of App.tsx.  `newId` is the value the one potential
`createId()` call would return. -/
def applyDropToLanes (lanes : List Lane) (laneIndex : Nat) (newId : String) : DropResult :=
  let lane := lanes.getD laneIndex []
  if MAX_STACK_HEIGHT ≤ lane.length then
    ⟨lanes, true, "レーン" ++ Nat.repr (laneIndex + 1) ++ "が高さオーバー。", none, none⟩
  else
    match lane.getLast? with
    | none =>
      ⟨lanes.set laneIndex (lane ++ [⟨newId, 1, false⟩]), false,
        "レーン" ++ Nat.repr (laneIndex + 1) ++ "に1が落下。", some newId, none⟩
    | some dropTop =>
      if dropTop.linked then
        if dropTop.size == 1 then
          ⟨lanes, true, "ロックされた1の上に1が落下して敗北。", none, none⟩
        else
          let shouldLink := dropTop.size == 2
          let newLane := lane ++ [⟨newId, 1, shouldLink⟩]
          ⟨lanes.set laneIndex newLane, decide (MAX_STACK_HEIGHT < newLane.length),
            "レーン" ++ Nat.repr (laneIndex + 1) ++ "に1が中に入りました。", some newId, none⟩
      else if dropTop.size == 1 then
        let popped := lane.dropLast
        let newCup : Cup :=
          ⟨newId, 2,
            match popped.getLast? with
            | some below => below.size - 2 == 1
            | none => false⟩
        let newLane := popped ++ [newCup]
        ⟨lanes.set laneIndex newLane, decide (MAX_STACK_HEIGHT < newLane.length),
          "レーン" ++ Nat.repr (laneIndex + 1) ++ "で1と1が合体し2になりました。",
          some newId, some 1⟩
      else
        let shouldLink := dropTop.size == 2
        let newLane := lane ++ [⟨newId, 1, shouldLink⟩]
        ⟨lanes.set laneIndex newLane, decide (MAX_STACK_HEIGHT < newLane.length),
          "レーン" ++ Nat.repr (laneIndex + 1) ++ "に1が中に入りました。", some newId, none⟩

/-- Outcome of the pure core of `handleMove`: either a rejection (the source
only sets an explanatory message and leaves the board untouched) or an
accepted move carrying the new board.  `usedId` records whether the branch
consumed a fresh id (`nextId()` is called exactly in the merge branch). -/
inductive MoveOutcome where
  | rejected (message : String)
  | accepted (lanes : List Lane) (usedId : Bool) (message : String)
deriving Repr, DecidableEq

/-- The `movingGroup.forEach` relinking loop of the `base.size < top.size`
branch of `handleMove`: every cup keeps its id and size, and its `linked`
flag is recomputed against the cup now below it (first against the target's
top, then against the previously rebuilt cup). -/
def relinkGroup (below : Cup) : List Cup → List Cup
  | [] => []
  | c :: rest =>
    let rebuilt : Cup := ⟨c.id, c.size, decide (below.size - c.size = 1)⟩
    rebuilt :: relinkGroup rebuilt rest

/-- Pure core of `handleMove` of App.tsx (the `setLanes`/`setMessage` pair of
the source becomes the returned outcome; `proceedToDrop` is the caller's
business). -/
def handleMove (lanes : List Lane) (f t : Nat) (newId : String) : MoveOutcome :=
  let source := lanes.getD f []
  if source.length = 0 then
    .rejected "移動元にコップがありません。"
  else
    let target := lanes.getD t []
    let startIndex := (getMovingGroupStartIndex source).toNat
    let movingGroup := source.drop startIndex
    let baseCup := movingGroup.headD cupDefault
    match target.getLast? with
    | none =>
      .accepted ((lanes.set f (source.take startIndex)).set t (target ++ movingGroup)) false
        ("レーン" ++ Nat.repr (f + 1) ++ "から" ++ Nat.repr (t + 1) ++ "へ移動。")
    | some targetTop =>
      if targetTop.size < baseCup.size then
        .rejected "大きいコップは小さい上に置けません。"
      else if baseCup.size < targetTop.size then
        .accepted
          ((lanes.set f (source.take startIndex)).set t
            (target ++ relinkGroup targetTop movingGroup)) false
          ("レーン" ++ Nat.repr (f + 1) ++ "から" ++ Nat.repr (t + 1) ++ "へ移動しました。")
      else if 1 < movingGroup.length then
        .rejected "連結グループは同サイズ合体できません。"
      else if baseCup.size == 5 then
        .rejected "サイズ5はこれ以上合体できません。"
      else
        let newTarget := target.dropLast
        let mergedSize := baseCup.size + 1
        let merged : Cup :=
          ⟨newId, mergedSize,
            match newTarget.getLast? with
            | some below => decide (below.size - mergedSize = 1)
            | none => false⟩
        .accepted ((lanes.set f (source.take startIndex)).set t (newTarget ++ [merged])) true
          ("レーン" ++ Nat.repr (f + 1) ++ "と" ++ Nat.repr (t + 1) ++ "の" ++
            Nat.repr baseCup.size ++ "が合体し" ++ Nat.repr mergedSize ++ "に。")

/-- Bool test used by several claims: the lane's top cup exists and is a
locked size-1 cup (`top.linked && top.size === 1`). -/
def lockedOneTop (lane : Lane) : Bool :=
  (lane.getLast?).any fun top => top.linked && top.size == 1

/-- The empty board `Array.from({length: LANE_COUNT}, () => [])`. -/
def emptyBoard : List Lane := List.replicate LANE_COUNT []

/-- Board-level step relation: one call of the drop resolver on any lane
with any fresh id, or one accepted move.  The host applies exactly these
board updates (`setLanes` in `proceedToDrop` and in the accepted branches of
`handleMove`); rejected moves leave the board untouched. -/
inductive Step : List Lane → List Lane → Prop where
  | drop : ∀ (b : List Lane) (i : Nat) (id : String), Step b (applyDropToLanes b i id).lanes
  | move : ∀ (b : List Lane) (f t : Nat) (id : String) (l : List Lane) (u : Bool) (m : String),
      handleMove b f t id = .accepted l u m → Step b l

/-- Boards reachable from the empty board by drops and accepted moves.
`initGame` seeds the empty board with two drops, so every board of a real
game is reachable in this sense. -/
def Reachable (b : List Lane) : Prop :=
  Relation.ReflTransGen Step emptyBoard b

/-- The id strings produced by `nextId` of App.tsx. -/
def mkId (n : Nat) : String := "cup-" ++ Nat.repr n

/-- The game state components that the engine logic reads: the board, the
predetermined lane of the upcoming forced drop, and the id counter
(`idRef`).  The remaining React state (messages, animation flags, turn
number) never feeds back into the board logic. -/
structure GState where
  lanes : List Lane
  nextDropLane : Nat
  counter : Nat
deriving Repr, DecidableEq

/-- `initGame` of App.tsx: reset the counter to 1, seed the empty board with
two drops on caller-chosen lanes (`pickNextLane(null)` can return any lane
index `< LANE_COUNT`), pick the upcoming drop lane (any lane other than the
second seed lane), and enter the playing state.  The forced-loss effect then
runs once on the seeded board; `initState` returns `none` when a choice is
impossible for `pickNextLane` or the effect would immediately end the game. -/
def initState (f1 f2 upcoming : Nat) : Option GState :=
  if f1 < LANE_COUNT ∧ f2 < LANE_COUNT ∧ upcoming < LANE_COUNT ∧ upcoming ≠ f2 then
    let first := applyDropToLanes emptyBoard f1 (mkId 1)
    let c1 := if first.spawnedId.isSome then 2 else 1
    let second := applyDropToLanes first.lanes f2 (mkId c1)
    let c2 := if second.spawnedId.isSome then c1 + 1 else c1
    if detectForcedLoss second.lanes upcoming = none then
      some ⟨second.lanes, upcoming, c2⟩
    else none
  else none

/-- One full player turn that leaves the game in the playing state,
mirroring `handleLaneClick` → `handleMove` → `proceedToDrop` and the
forced-loss effect of App.tsx:
* `mv = none` is the skip (click the selected lane again): the forced drop
  runs with no prior move;
* `mv = some (f, t)` with `f ≠ t` is a move; it must be accepted (a rejected
  move only sets a message and the player chooses again), and because
  `proceedToDrop` delays the drop by `DROP_DELAY_MS`, the forced-loss effect
  observes the moved board before the drop and must find nothing;
* then `applyDropToLanes` runs on the predetermined lane with a fresh id;
  a lost drop ends the game (`none` here), a win ends it, otherwise the next
  drop lane `upcoming` is drawn by `pickNextLane(nextDropLane)` (any lane
  other than the current one) and the forced-loss effect checks the new
  board against it.

`some s` is returned exactly when the game is still in the `playing` state
after the turn with state components `s`. -/
def playTurn (s : GState) (mv : Option (Nat × Nat)) (upcoming : Nat) : Option GState :=
  let afterMove : Option (List Lane × Nat) :=
    match mv with
    | none => some (s.lanes, s.counter)
    | some (f, t) =>
      if f = t then none
      else
        match handleMove s.lanes f t (mkId s.counter) with
        | .rejected _ => none
        | .accepted l u _ =>
          if detectForcedLoss l s.nextDropLane = none then
            some (l, if u then s.counter + 1 else s.counter)
          else none
  match afterMove with
  | none => none
  | some (l, c) =>
    let dr := applyDropToLanes l s.nextDropLane (mkId c)
    let c' := if dr.spawnedId.isSome then c + 1 else c
    if dr.lost then none
    else if checkWin dr.lanes then none
    else if upcoming < LANE_COUNT ∧ upcoming ≠ s.nextDropLane ∧
        detectForcedLoss dr.lanes upcoming = none then
      some ⟨dr.lanes, upcoming, c'⟩
    else none

/-- Fold a list of per-turn choices (optional move, next drop lane drawn by
the RNG) over `playTurn`. -/
def playTrace (s : Option GState) (choices : List (Option (Nat × Nat) × Nat)) : Option GState :=
  choices.foldl
    (fun acc ch =>
      match acc with
      | none => none
      | some st => playTurn st ch.1 ch.2)
    s

/-- Observer for move outcomes: `true` exactly on the rejection branches of
`handleMove` (set a message, leave the board untouched). -/
def isRejected : MoveOutcome → Bool
  | .rejected _ => true
  | .accepted _ _ _ => false

/-- Specification-side reading of one winning window of `checkWin`: the five
consecutive cups starting at index `i` of a lane have sizes `5,4,3,2,1`
bottom-to-top and the four upper ones are linked.  The `linked` flag of the
size-5 base cup at index `i` is not mentioned. -/
def specWinAt (lane : Lane) (i : Nat) : Prop :=
  lane[i]?.map Cup.size = some 5 ∧ lane[i + 1]?.map Cup.size = some 4 ∧
    lane[i + 2]?.map Cup.size = some 3 ∧ lane[i + 3]?.map Cup.size = some 2 ∧
    lane[i + 4]?.map Cup.size = some 1 ∧
    lane[i + 1]?.map Cup.linked = some true ∧ lane[i + 2]?.map Cup.linked = some true ∧
    lane[i + 3]?.map Cup.linked = some true ∧ lane[i + 4]?.map Cup.linked = some true

/-- The linkage relation between a cup and the cup directly below it: a set
`linked` flag demands that the cup below is exactly one size larger. -/
def cupOK (below cup : Cup) : Prop := cup.linked = true → below.size = cup.size + 1

/-- Lane invariant: the bottom cup is never linked, and every adjacent pair
satisfies `cupOK`. -/
def laneOK (lane : Lane) : Prop :=
  (∀ c ∈ lane.head?, c.linked = false) ∧ List.Chain' cupOK lane

/-- Board invariant: every lane satisfies `laneOK`. -/
def boardOK (b : List Lane) : Prop := ∀ lane ∈ b, laneOK lane

/-!
Helper lemmas about the win detector and the linkage invariant.
-/

theorem winWindow_take_iff (d : List Cup) :
    winWindow (d.take 5) = true ↔
      (d[0]?.map Cup.size = some 5 ∧ d[1]?.map Cup.size = some 4 ∧
        d[2]?.map Cup.size = some 3 ∧ d[3]?.map Cup.size = some 2 ∧
        d[4]?.map Cup.size = some 1 ∧
        d[1]?.map Cup.linked = some true ∧ d[2]?.map Cup.linked = some true ∧
        d[3]?.map Cup.linked = some true ∧ d[4]?.map Cup.linked = some true) := by
  match d with
  | [] => simp [winWindow]
  | [c0] => simp [winWindow]
  | [c0, c1] => simp [winWindow]
  | [c0, c1, c2] => simp [winWindow]
  | [c0, c1, c2, c3] => simp [winWindow]
  | c0 :: c1 :: c2 :: c3 :: c4 :: rest =>
    simp [winWindow, and_assoc]

theorem specWinAt_iff_drop (lane : Lane) (i : Nat) :
    specWinAt lane i ↔
      ((lane.drop i)[0]?.map Cup.size = some 5 ∧ (lane.drop i)[1]?.map Cup.size = some 4 ∧
        (lane.drop i)[2]?.map Cup.size = some 3 ∧ (lane.drop i)[3]?.map Cup.size = some 2 ∧
        (lane.drop i)[4]?.map Cup.size = some 1 ∧
        (lane.drop i)[1]?.map Cup.linked = some true ∧
        (lane.drop i)[2]?.map Cup.linked = some true ∧
        (lane.drop i)[3]?.map Cup.linked = some true ∧
        (lane.drop i)[4]?.map Cup.linked = some true) := by
  unfold specWinAt
  simp [List.getElem?_drop]

theorem laneWins_iff (lane : Lane) : laneWins lane = true ↔ ∃ i, specWinAt lane i := by
  have hw : ∀ i : Nat, winWindow ((lane.drop i).take 5) = true ↔ specWinAt lane i := by
    intro i
    rw [winWindow_take_iff, specWinAt_iff_drop]
  have hbound : ∀ i : Nat, specWinAt lane i → i + 4 < lane.length := by
    intro i hs
    by_contra hcon
    have hnone : lane[i + 4]? = none := List.getElem?_eq_none (by omega)
    simp only [specWinAt, hnone] at hs
    simp at hs
  unfold laneWins
  split
  · rename_i hshort
    constructor
    · intro h
      exact absurd h (by simp)
    · intro ⟨i, hs⟩
      have := hbound i hs
      omega
  · rename_i hlong
    rw [List.any_eq_true]
    constructor
    · rintro ⟨i, hmem, hwin⟩
      exact ⟨i, (hw i).1 hwin⟩
    · rintro ⟨i, hs⟩
      refine ⟨i, List.mem_range.mpr ?_, (hw i).2 hs⟩
      have := hbound i hs
      omega

theorem laneOK_nil : laneOK [] := by
  constructor
  · intro c hc
    simp at hc
  · simp

theorem laneOK_append_singleton {l : Lane} (h : laneOK l) (c : Cup)
    (hc : c.linked = true → ∃ b, l.getLast? = some b ∧ b.size = c.size + 1) :
    laneOK (l ++ [c]) := by
  constructor
  · intro d hd
    cases l with
    | nil =>
      simp at hd
      subst hd
      by_contra hlink
      simp only [Bool.not_eq_false] at hlink
      obtain ⟨b, hb, _⟩ := hc hlink
      simp at hb
    | cons a tl =>
      simp at hd
      subst hd
      exact h.1 a (by simp)
  · rw [List.chain'_append]
    refine ⟨h.2, List.chain'_singleton c, ?_⟩
    intro x hx y hy
    simp only [List.head?_cons, Option.mem_def, Option.some.injEq] at hy
    subst hy
    intro hlink
    obtain ⟨b, hb, hsize⟩ := hc hlink
    rw [Option.mem_def, hb] at hx
    cases hx
    exact hsize

theorem laneOK_take {l : Lane} (h : laneOK l) (k : Nat) : laneOK (l.take k) := by
  constructor
  · intro c hc
    apply h.1
    cases l with
    | nil => simp at hc
    | cons a tl =>
      cases k with
      | zero => simp at hc
      | succ n =>
        simp at hc
        simp [hc]
  · exact h.2.take k

theorem laneOK_dropLast {l : Lane} (h : laneOK l) : laneOK l.dropLast := by
  constructor
  · intro c hc
    apply h.1
    cases l with
    | nil => simp at hc
    | cons a tl =>
      cases tl with
      | nil => simp at hc
      | cons b tl2 =>
        simp at hc
        simp [hc]
  · exact h.2.init

theorem laneOK_drop {l : Lane} (h : laneOK l) (k : Nat)
    (hhead : ∀ c ∈ (l.drop k).head?, c.linked = false) : laneOK (l.drop k) :=
  ⟨hhead, h.2.drop k⟩

theorem groupStartAux_spec (stack : List Cup) (n : Nat) :
    groupStartAux stack n = 0 ∨
      (stack.getD (groupStartAux stack n) cupDefault).linked = false := by
  induction n with
  | zero => exact Or.inl rfl
  | succ m ih =>
    unfold groupStartAux
    split
    · exact ih
    · rename_i hlink
      exact Or.inr (by simpa using hlink)

theorem movingGroup_head_unlinked {stack : List Cup} (h : laneOK stack) (n : Nat) :
    ∀ c ∈ (stack.drop (groupStartAux stack n)).head?, c.linked = false := by
  intro c hc
  rw [List.head?_drop] at hc
  rcases groupStartAux_spec stack n with h0 | hunlinked
  · rw [h0] at hc
    apply h.1
    cases stack with
    | nil => simp at hc
    | cons a tl => simpa using hc
  · by_cases hlt : groupStartAux stack n < stack.length
    · rw [List.getElem?_eq_getElem hlt] at hc
      rw [List.getD_eq_getElem stack cupDefault hlt] at hunlinked
      cases hc
      exact hunlinked
    · rw [List.getElem?_eq_none (by omega)] at hc
      cases hc

theorem chain'_relinkGroup (g : List Cup) :
    ∀ below : Cup, List.Chain' cupOK (below :: relinkGroup below g) := by
  induction g with
  | nil =>
    intro below
    simp [relinkGroup]
  | cons c rest ih =>
    intro below
    unfold relinkGroup
    refine (ih _).cons' ?_
    intro y hy
    simp only [List.head?_cons, Option.mem_def, Option.some.injEq] at hy
    subst hy
    intro hlink
    simp only [decide_eq_true_eq] at hlink
    simp only []
    omega

theorem laneOK_append_relink {target : Lane} {tt : Cup} (h : laneOK target)
    (htop : target.getLast? = some tt) (g : List Cup) :
    laneOK (target ++ relinkGroup tt g) := by
  have hchain := chain'_relinkGroup g tt
  rw [List.chain'_cons'] at hchain
  constructor
  · intro c hc
    apply h.1
    cases target with
    | nil => simp at htop
    | cons a tl =>
      simp only [List.cons_append, List.head?_cons, Option.mem_def, Option.some.injEq] at hc
      subst hc
      simp
  · rw [List.chain'_append]
    refine ⟨h.2, hchain.2, ?_⟩
    intro x hx y hy
    rw [Option.mem_def, htop] at hx
    cases hx
    exact hchain.1 y hy

theorem laneOK_getD {b : List Lane} (h : boardOK b) (i : Nat) : laneOK (b.getD i []) := by
  by_cases hlt : i < b.length
  · rw [List.getD_eq_getElem b [] hlt]
    exact h _ (List.getElem_mem hlt)
  · rw [List.getD_eq_default b [] (by omega)]
    exact laneOK_nil

theorem boardOK_set {b : List Lane} (h : boardOK b) {lane : Lane} (hl : laneOK lane) (i : Nat) :
    boardOK (b.set i lane) := by
  intro l hmem
  rcases List.mem_or_eq_of_mem_set hmem with hmem' | rfl
  · exact h l hmem'
  · exact hl

theorem drop_preserves_boardOK {b : List Lane} (h : boardOK b) (i : Nat) (id : String) :
    boardOK (applyDropToLanes b i id).lanes := by
  have hlane : laneOK (b.getD i []) := laneOK_getD h i
  unfold applyDropToLanes
  dsimp only
  split
  · exact h
  · rename_i hlt
    split
    · rename_i hnone
      refine boardOK_set h ?_ i
      refine laneOK_append_singleton hlane _ ?_
      intro hlink
      simp at hlink
    · rename_i dropTop hsome
      split
      · split
        · exact h
        · rename_i hone
          refine boardOK_set h ?_ i
          refine laneOK_append_singleton hlane _ ?_
          intro hlink
          simp only [beq_iff_eq] at hlink
          exact ⟨dropTop, hsome, by rw [hlink]⟩
      · rename_i hnotlinked
        split
        · rename_i hone
          refine boardOK_set h ?_ i
          refine laneOK_append_singleton (laneOK_dropLast hlane) _ ?_
          intro hlink
          rcases hpl : ((b.getD i []).dropLast).getLast? with _ | below
          · rw [hpl] at hlink
            cases hlink
          · rw [hpl] at hlink
            simp at hlink
            refine ⟨below, rfl, ?_⟩
            dsimp only
            omega
        · rename_i hone
          refine boardOK_set h ?_ i
          refine laneOK_append_singleton hlane _ ?_
          intro hlink
          simp only [beq_iff_eq] at hlink
          exact ⟨dropTop, hsome, by rw [hlink]⟩

theorem move_preserves_boardOK {b : List Lane} (h : boardOK b) (f t : Nat) (id : String)
    {l : List Lane} {u : Bool} {m : String}
    (hmv : handleMove b f t id = .accepted l u m) : boardOK l := by
  have hsrcOK : laneOK (b.getD f []) := laneOK_getD h f
  have htgtOK : laneOK (b.getD t []) := laneOK_getD h t
  have hgroupOK : ∀ n : Nat, laneOK ((b.getD f []).drop (groupStartAux (b.getD f []) n)) :=
    fun n => laneOK_drop hsrcOK _ (movingGroup_head_unlinked hsrcOK n)
  unfold handleMove at hmv
  dsimp only at hmv
  split at hmv
  · exact MoveOutcome.noConfusion hmv
  · rename_i hlen0
    have hstart :
        (getMovingGroupStartIndex (b.getD f [])).toNat =
          groupStartAux (b.getD f []) ((b.getD f []).length - 1) := by
      unfold getMovingGroupStartIndex
      rw [if_neg hlen0]
      simp
    split at hmv
    · rename_i hnone
      injection hmv with h1 h2 h3
      subst h1
      have htgtnil : b.getD t [] = [] := List.getLast?_eq_none_iff.mp hnone
      rw [htgtnil, List.nil_append, hstart]
      exact boardOK_set (boardOK_set h (laneOK_take hsrcOK _) f) (hgroupOK _) t
    · rename_i targetTop hsome
      split at hmv
      · exact MoveOutcome.noConfusion hmv
      · split at hmv
        · injection hmv with h1 h2 h3
          subst h1
          rw [hstart]
          exact boardOK_set (boardOK_set h (laneOK_take hsrcOK _) f)
            (laneOK_append_relink htgtOK hsome _) t
        · split at hmv
          · exact MoveOutcome.noConfusion hmv
          · split at hmv
            · exact MoveOutcome.noConfusion hmv
            · injection hmv with h1 h2 h3
              subst h1
              refine boardOK_set (boardOK_set h (laneOK_take hsrcOK _) f) ?_ t
              refine laneOK_append_singleton (laneOK_dropLast htgtOK) _ ?_
              intro hlink
              rcases hpl : ((b.getD t []).dropLast).getLast? with _ | below
              · rw [hpl] at hlink
                cases hlink
              · rw [hpl] at hlink
                dsimp only at hlink
                rw [decide_eq_true_eq] at hlink
                refine ⟨below, rfl, ?_⟩
                dsimp only
                omega

theorem step_preserves_boardOK {b b' : List Lane} (hs : Step b b') (h : boardOK b) :
    boardOK b' := by
  cases hs with
  | drop i id => exact drop_preserves_boardOK h i id
  | move f t id l u m hmv => exact move_preserves_boardOK h f t id hmv

theorem reachable_boardOK {b : List Lane} (h : Reachable b) : boardOK b := by
  induction h with
  | refl =>
    intro lane hmem
    have := List.eq_of_mem_replicate hmem
    subst this
    exact laneOK_nil
  | tail hpre hstep ih => exact step_preserves_boardOK hstep ih

/-!
Claim theorems.
-/

/-- C1, counterexample.  On the board with lane 1 equal to
`[size 2 unlocked, size 1 locked]` and next-drop lane 0, `detectForcedLoss`
reports a forced loss although the accepted move of the whole group from
lane 0 to lane 1 followed by the mandatory drop on lane 0 is not lost, so
the claimed iff with the exhaustive (skip or move)+drop search fails:
the claim requires `none` here. -/
theorem detectForcedLoss_no_lookahead :
    (detectForcedLoss [[⟨"a", 2, false⟩, ⟨"b", 1, true⟩], [], [], []] 0).isSome = true ∧
      handleMove [[⟨"a", 2, false⟩, ⟨"b", 1, true⟩], [], [], []] 0 1 "m" =
        .accepted [[], [⟨"a", 2, false⟩, ⟨"b", 1, true⟩], [], []] false "レーン1から2へ移動。" ∧
      (applyDropToLanes [[], [⟨"a", 2, false⟩, ⟨"b", 1, true⟩], [], []] 0 "c").lost = false := by
  refine ⟨by decide, by decide, by decide⟩

/-- C1, amended.  `detectForcedLoss` performs no lookahead at all: for a
valid next-drop lane it reports a forced loss exactly when the lane is at
max height or its top cup is a locked size-1 cup, regardless of whether any
move could rescue the position. -/
theorem detectForcedLoss_characterization (lanes : List Lane) (next : Nat)
    (h : next < lanes.length) :
    (detectForcedLoss lanes next).isSome =
      (decide (MAX_STACK_HEIGHT ≤ lanes[next].length) || lockedOneTop lanes[next]) := by
  unfold detectForcedLoss lockedOneTop
  rw [List.getElem?_eq_getElem h]
  dsimp only
  split
  · rename_i hfull
    simp [hfull]
  · rename_i hlt
    split
    · rename_i top hsome
      split
      · rename_i hcond
        simp [hsome, hcond, hlt]
      · rename_i hcond
        simp [hsome, hcond, hlt]
    · rename_i hnone
      simp [hnone, hlt]

/-- C1, witness for the amended theorem at a concrete locked-top board. -/
theorem detectForcedLoss_characterization_witness :
    (detectForcedLoss [[⟨"a", 2, false⟩, ⟨"b", 1, true⟩], [], [], []] 0).isSome = true := by
  rw [detectForcedLoss_characterization _ 0 (by decide)]
  decide

/-- C2, counterexample.  A 12-turn game from the seeded initial board
(seed drops on lane 0 twice, first forced-drop lane 1), in which every move
is accepted, every drop survives, no win occurs and every forced-loss check
passes, ends in a still-playing state whose lane 0 has height 7: accepted
moves perform no height check, so height 7 is a reachable non-terminal
resting state, contradicting the claim. -/
theorem reachable_overheight_playing_state :
    (playTrace (initState 0 0 1)
        [(none, 0), (none, 1), (some (1, 0), 0), (none, 1), (some (1, 0), 0), (none, 1),
          (some (1, 0), 0), (none, 1), (some (1, 0), 0), (none, 1), (some (1, 0), 2),
          (some (1, 0), 1)]).map (fun s => (s.lanes.getD 0 []).length) = some 7 := by
  rfl

/-- C2, amended.  The drop resolver itself does preserve the height bound:
a drop onto a board whose lanes all have length at most 6 yields lanes of
length at most 6 (a lane at height 6 is rejected before any cup is added).
Only moves can exceed the bound. -/
theorem drop_preserves_height_bound (lanes : List Lane) (i : Nat) (id : String)
    (h : ∀ l ∈ lanes, l.length ≤ MAX_STACK_HEIGHT) :
    ∀ l ∈ (applyDropToLanes lanes i id).lanes, l.length ≤ MAX_STACK_HEIGHT := by
  intro l hmem
  unfold applyDropToLanes at hmem
  dsimp only at hmem
  split at hmem
  · exact h l hmem
  · rename_i hlt
    simp only [MAX_STACK_HEIGHT, Nat.not_le] at hlt
    split at hmem
    · rcases List.mem_or_eq_of_mem_set hmem with hm | rfl
      · exact h l hm
      · simp only [MAX_STACK_HEIGHT, List.length_append, List.length_singleton]
        omega
    · split at hmem
      · split at hmem
        · exact h l hmem
        · rcases List.mem_or_eq_of_mem_set hmem with hm | rfl
          · exact h l hm
          · simp only [MAX_STACK_HEIGHT, List.length_append, List.length_singleton]
            omega
      · split at hmem
        · rcases List.mem_or_eq_of_mem_set hmem with hm | rfl
          · exact h l hm
          · simp only [MAX_STACK_HEIGHT, List.length_append, List.length_singleton,
              List.length_dropLast]
            omega
        · rcases List.mem_or_eq_of_mem_set hmem with hm | rfl
          · exact h l hm
          · simp only [MAX_STACK_HEIGHT, List.length_append, List.length_singleton]
            omega

/-- C2, witness for the amended theorem: a drop on the empty board keeps
every lane within the height bound. -/
theorem drop_preserves_height_bound_witness :
    ([⟨"x", 1, false⟩] : Lane).length ≤ MAX_STACK_HEIGHT :=
  drop_preserves_height_bound [[], [], [], []] 0 "x" (by decide) [⟨"x", 1, false⟩] (by decide)

/-- C3, counterexample.  Moving the lone unlocked size-1 cup of lane 2 onto
lane 1, whose top cup is a locked size-1 cup, is accepted by `handleMove`
and changes the board (the locked top is consumed by the merge), although
the claim requires a rejection with the board unchanged. -/
theorem locked_merge_accepted :
    handleMove [[⟨"a", 2, false⟩, ⟨"b", 1, true⟩], [⟨"c", 1, false⟩], [], []] 1 0 "m" =
      .accepted [[⟨"a", 2, false⟩, ⟨"m", 2, false⟩], [], [], []] true
        "レーン2と1の1が合体し2に。" := by
  decide

/-- C3, amended.  In the equal-size case (`base.size == targetTop.size`),
`handleMove` rejects exactly when the moving group is longer than one cup or
the base cup has size 5; the `linked` flags of the base cup and of the
destination top are never consulted, so a locked cup is merged away. -/
theorem equal_size_merge_ignores_locks (lanes : List Lane) (f t : Nat) (id : String) (tt : Cup)
    (hf : f < lanes.length) (ht : t < lanes.length) (hsrc : lanes[f] ≠ [])
    (htop : lanes[t].getLast? = some tt)
    (hsize :
      ((lanes[f].drop (getMovingGroupStartIndex lanes[f]).toNat).headD cupDefault).size =
        tt.size) :
    isRejected (handleMove lanes f t id) =
      (decide (1 < (lanes[f].drop (getMovingGroupStartIndex lanes[f]).toNat).length) ||
        decide
          (((lanes[f].drop (getMovingGroupStartIndex lanes[f]).toNat).headD cupDefault).size =
            5)) := by
  unfold handleMove
  rw [List.getD_eq_getElem lanes [] hf, List.getD_eq_getElem lanes [] ht]
  dsimp only
  rw [if_neg (by simpa using hsrc), htop]
  dsimp only
  rw [if_neg (by omega), if_neg (by omega)]
  split
  · rename_i hlong
    rw [decide_eq_true hlong]
    simp [isRejected]
  · rename_i hshort
    split
    · rename_i hfive
      simp only [beq_iff_eq] at hfive
      rw [decide_eq_true hfive]
      simp [isRejected]
    · rename_i hfive
      simp only [beq_iff_eq] at hfive
      rw [decide_eq_false hshort, decide_eq_false hfive]
      simp [isRejected]

/-- C3, witness for the amended theorem: an equal-size move of a size-5 cup
is rejected. -/
theorem equal_size_merge_ignores_locks_witness :
    isRejected (handleMove [[⟨"a", 5, false⟩], [⟨"b", 5, false⟩], [], []] 0 1 "m") = true := by
  rw [equal_size_merge_ignores_locks [[⟨"a", 5, false⟩], [⟨"b", 5, false⟩], [], []] 0 1 "m"
    ⟨"b", 5, false⟩ (by decide) (by decide) (by decide) (by decide) (by decide)]
  decide

/-- C4.  On every board reachable from the empty board (hence from the
seeded initial board of `initGame`) by drops and accepted moves, every cup
at a positive lane index with `linked = true` sits directly above a cup
exactly one size larger (`lane[i-1].size - lane[i].size = 1`); the
preservation proof for every drop and accepted move branch is
`step_preserves_boardOK` above. -/
theorem reachable_linked_invariant (b : List Lane) (hreach : Reachable b) (lane : Lane)
    (hmem : lane ∈ b) (i : Nat) (h0 : 0 < i) (hi : i < lane.length)
    (hlink : (lane.getD i cupDefault).linked = true) :
    (lane.getD (i - 1) cupDefault).size - (lane.getD i cupDefault).size = 1 := by
  have hok := reachable_boardOK hreach lane hmem
  have hrel := (List.chain'_iff_get.mp hok.2) (i - 1) (by omega)
  simp only [List.get_eq_getElem] at hrel
  have hcup : cupOK (lane.getD (i - 1) cupDefault) (lane.getD i cupDefault) := by
    rw [List.getD_eq_getElem lane cupDefault (show i - 1 < lane.length by omega),
      List.getD_eq_getElem lane cupDefault hi]
    convert hrel using 2
    omega
  have hsz := hcup hlink
  omega

/-- C4, witness: the board reached by three drops on lane 0 (drop, merge to
a size-2 cup, drop of a linked size-1 cup) satisfies the linkage size
relation at index 1. -/
theorem reachable_linked_invariant_witness :
    (([⟨"cup-2", 2, false⟩, ⟨"cup-3", 1, true⟩] : Lane).getD 0 cupDefault).size -
        (([⟨"cup-2", 2, false⟩, ⟨"cup-3", 1, true⟩] : Lane).getD 1 cupDefault).size = 1 := by
  have e1 : (applyDropToLanes emptyBoard 0 "cup-1").lanes =
      [[⟨"cup-1", 1, false⟩], [], [], []] := by decide
  have s1 : Step emptyBoard [[⟨"cup-1", 1, false⟩], [], [], []] :=
    e1 ▸ Step.drop emptyBoard 0 "cup-1"
  have e2 : (applyDropToLanes [[⟨"cup-1", 1, false⟩], [], [], []] 0 "cup-2").lanes =
      [[⟨"cup-2", 2, false⟩], [], [], []] := by decide
  have s2 : Step [[⟨"cup-1", 1, false⟩], [], [], []] [[⟨"cup-2", 2, false⟩], [], [], []] :=
    e2 ▸ Step.drop _ 0 "cup-2"
  have e3 : (applyDropToLanes [[⟨"cup-2", 2, false⟩], [], [], []] 0 "cup-3").lanes =
      [[⟨"cup-2", 2, false⟩, ⟨"cup-3", 1, true⟩], [], [], []] := by decide
  have s3 : Step [[⟨"cup-2", 2, false⟩], [], [], []]
      [[⟨"cup-2", 2, false⟩, ⟨"cup-3", 1, true⟩], [], [], []] :=
    e3 ▸ Step.drop _ 0 "cup-3"
  have hreach : Reachable [[⟨"cup-2", 2, false⟩, ⟨"cup-3", 1, true⟩], [], [], []] :=
    Relation.ReflTransGen.tail
      (Relation.ReflTransGen.tail (Relation.ReflTransGen.single s1) s2) s3
  exact reachable_linked_invariant _ hreach _ (by simp) 1 (by omega) (by simp) (by decide)

/-- C5.  `checkWin` returns `true` exactly when some lane has a contiguous
5-cup window, scanned bottom-to-top, whose sizes are `5,4,3,2,1` and whose
four upper cups are all linked; `specWinAt` never mentions the `linked`
flag of the size-5 base cup, so that flag cannot affect the result. -/
theorem checkWin_iff_spec (lanes : List Lane) :
    checkWin lanes = true ↔ ∃ lane ∈ lanes, ∃ i, specWinAt lane i := by
  unfold checkWin
  rw [List.any_eq_true]
  constructor
  · rintro ⟨lane, hmem, hwin⟩
    exact ⟨lane, hmem, (laneWins_iff lane).1 hwin⟩
  · rintro ⟨lane, hmem, i, hs⟩
    exact ⟨lane, hmem, (laneWins_iff lane).2 ⟨i, hs⟩⟩

/-- C6.  A drop onto a lane that already has max height returns `lost =
true` with the terminal height message and the board exactly as given: no
cup is added and no lane changes. -/
theorem drop_on_full_lane_rejects (lanes : List Lane) (i : Nat) (id : String)
    (hi : i < lanes.length) (hfull : MAX_STACK_HEIGHT ≤ lanes[i].length) :
    applyDropToLanes lanes i id =
      ⟨lanes, true, "レーン" ++ Nat.repr (i + 1) ++ "が高さオーバー。", none, none⟩ := by
  unfold applyDropToLanes
  rw [List.getD_eq_getElem lanes [] hi]
  simp only [if_pos hfull]

/-- C6, witness at a lane of height 6. -/
theorem drop_on_full_lane_rejects_witness :
    (applyDropToLanes
        [[⟨"a", 3, false⟩, ⟨"b", 2, true⟩, ⟨"c", 1, true⟩, ⟨"d", 3, false⟩, ⟨"e", 2, true⟩,
            ⟨"f", 1, true⟩], [], [], []] 0 "x").lost = true ∧
      (applyDropToLanes
          [[⟨"a", 3, false⟩, ⟨"b", 2, true⟩, ⟨"c", 1, true⟩, ⟨"d", 3, false⟩, ⟨"e", 2, true⟩,
              ⟨"f", 1, true⟩], [], [], []] 0 "x").lanes =
        [[⟨"a", 3, false⟩, ⟨"b", 2, true⟩, ⟨"c", 1, true⟩, ⟨"d", 3, false⟩, ⟨"e", 2, true⟩,
            ⟨"f", 1, true⟩], [], [], []] := by
  rw [drop_on_full_lane_rejects _ 0 "x" (by decide) (by decide)]
  exact ⟨rfl, rfl⟩

/-- C7.  A drop onto a lane below max height whose top cup is an unlocked
size-1 cup removes that cup and pushes one new size-2 cup carrying the
fresh id, with `linked` recomputed against the cup now below it
(`below.size - 2 == 1`); the result is not lost. -/
theorem drop_merges_unlocked_one (lanes : List Lane) (i : Nat) (id : String) (t : Cup)
    (hi : i < lanes.length) (hlen : lanes[i].length < MAX_STACK_HEIGHT)
    (htop : lanes[i].getLast? = some t) (hsize : t.size = 1) (hunlocked : t.linked = false) :
    applyDropToLanes lanes i id =
      ⟨lanes.set i (lanes[i].dropLast ++
          [⟨id, 2,
            match lanes[i].dropLast.getLast? with
            | some below => below.size - 2 == 1
            | none => false⟩]),
        false,
        "レーン" ++ Nat.repr (i + 1) ++ "で1と1が合体し2になりました。",
        some id, some 1⟩ := by
  have hne : lanes[i] ≠ [] := by
    intro h
    rw [h] at htop
    simp at htop
  have hpos : 0 < lanes[i].length := List.length_pos.mpr hne
  unfold applyDropToLanes
  rw [List.getD_eq_getElem lanes [] hi]
  dsimp only
  rw [if_neg (by omega), htop]
  dsimp only
  rw [hunlocked]
  simp only [Bool.false_eq_true, if_false, hsize]
  rw [if_pos (show ((1:Nat) == 1) = true from rfl)]
  simp only [DropResult.mk.injEq, decide_eq_false_iff_not, Nat.not_lt, and_true, true_and,
    List.length_append, List.length_dropLast, List.length_singleton, MAX_STACK_HEIGHT] at hlen ⊢
  omega

/-- C7, witness: the scenario of the spec, lane `[size 1]` becomes
`[size 2 unlinked]` and the drop is not lost. -/
theorem drop_merges_unlocked_one_witness :
    (applyDropToLanes [[⟨"y", 1, false⟩], [], [], []] 0 "x").lanes =
        [[⟨"x", 2, false⟩], [], [], []] ∧
      (applyDropToLanes [[⟨"y", 1, false⟩], [], [], []] 0 "x").lost = false := by
  rw [drop_merges_unlocked_one [[⟨"y", 1, false⟩], [], [], []] 0 "x" ⟨"y", 1, false⟩
    (by decide) (by decide) (by decide) rfl rfl]
  exact ⟨rfl, rfl⟩

/-- C9.  For a valid lane index, the drop resolver loses exactly when the
lane is already at max height or its top cup is a locked size-1 cup; in
every lost case the returned board equals the input board (no cup added),
and in every non-lost case a cup carrying the fresh id was spawned, so the
post-push overflow computation never yields `lost = true`. -/
theorem drop_lost_characterization (lanes : List Lane) (i : Nat) (id : String)
    (hi : i < lanes.length) :
    ((applyDropToLanes lanes i id).lost = true ↔
        MAX_STACK_HEIGHT ≤ lanes[i].length ∨ lockedOneTop lanes[i] = true) ∧
      ((applyDropToLanes lanes i id).lost = true → (applyDropToLanes lanes i id).lanes = lanes) ∧
      ((applyDropToLanes lanes i id).lost = false →
        (applyDropToLanes lanes i id).spawnedId = some id) := by
  unfold applyDropToLanes lockedOneTop
  rw [List.getD_eq_getElem lanes [] hi]
  dsimp only
  split
  · rename_i hfull
    simp [hfull]
  · rename_i hlt
    split
    · rename_i hnone
      simp [hnone, hlt]
    · rename_i dropTop hsome
      split
      · rename_i hlinked
        split
        · rename_i hone
          simp [hsome, hlinked, hone, hlt]
        · rename_i hone
          simp only [MAX_STACK_HEIGHT] at hlt
          simp [hsome, hlinked, hone, MAX_STACK_HEIGHT]
          omega
      · rename_i hlinked
        have hne : lanes[i] ≠ [] := by
          intro h
          rw [h] at hsome
          simp at hsome
        have hpos : 0 < lanes[i].length := List.length_pos.mpr hne
        split
        · rename_i hone
          simp only [MAX_STACK_HEIGHT] at hlt
          simp [hsome, hlinked, hone, MAX_STACK_HEIGHT]
          omega
        · rename_i hone
          simp only [MAX_STACK_HEIGHT] at hlt
          simp [hsome, hlinked, hone, MAX_STACK_HEIGHT]
          omega

/-- C9, witness at the locked-top board: the characterization applied to a
lane whose top is a locked size-1 cup yields `lost = true`. -/
theorem drop_lost_characterization_witness :
    (applyDropToLanes [[⟨"a", 2, false⟩, ⟨"b", 1, true⟩], [], [], []] 0 "x").lost = true := by
  have h :=
    (drop_lost_characterization [[⟨"a", 2, false⟩, ⟨"b", 1, true⟩], [], [], []] 0 "x"
      (by decide)).1
  rw [h]
  right
  decide

/-- C10.  The drop resolver never touches a lane other than the target
lane: for every other index the returned board holds exactly the input
lane (same cups, ids, sizes, linked flags, in order), in every branch. -/
theorem drop_frame (lanes : List Lane) (i : Nat) (id : String) (j : Nat) (hij : j ≠ i) :
    (applyDropToLanes lanes i id).lanes[j]? = lanes[j]? := by
  unfold applyDropToLanes
  dsimp only
  split
  · rfl
  · split
    · exact List.getElem?_set_ne (Ne.symm hij)
    · split
      · split
        · rfl
        · exact List.getElem?_set_ne (Ne.symm hij)
      · split
        · exact List.getElem?_set_ne (Ne.symm hij)
        · exact List.getElem?_set_ne (Ne.symm hij)

/-- C10, witness: a drop on lane 0 leaves lane 1 unchanged. -/
theorem drop_frame_witness :
    (applyDropToLanes [[], [⟨"a", 1, false⟩], [], []] 0 "x").lanes[1]? =
      some [⟨"a", 1, false⟩] := by
  rw [drop_frame [[], [⟨"a", 1, false⟩], [], []] 0 "x" 1 (by decide)]
  rfl

end CupStack
